import Mathlib

/-!
Verification of the embedding-augmentation pipeline in
src/semantic-search/generate_embeddings.py.

The Python script is shallowly embedded: JSON records become association
lists of string keys and values, the external collaborators (SHA-256,
the seeded RNG of numpy, the square root used by the vector norm, and the
remote embedding service) become explicit function parameters bundled in
a structure, and the retry loop becomes a structurally recursive function
that also returns its observable trace (the list of sleep durations and
the number of service calls).  Floating-point numbers are idealised as an
arbitrary linearly ordered field.
-/

namespace Estate

/-- A JSON-ish field value: a string, an integer, or a numeric vector
(the embedding attached by the script).  Scalars of the vector live in an
arbitrary type so the development can be instantiated both at rationals
(for executable checks) and at the reals (for norm facts). -/
inductive Value (A : Type) where
  | vstr (s : String)
  | vint (n : Int)
  | vvec (v : List A)
deriving DecidableEq

/-- A Record: one housing listing, a mapping of named fields to values,
modelled as an association list in insertion order (Python dicts preserve
insertion order). -/
def Record (A : Type) : Type := List (String × Value A)

instance (A : Type) [DecidableEq A] : DecidableEq (Record A) := by
  unfold Record; infer_instance

/-- Python truthiness of a field value, as used by `property_data.get(k)`
in a boolean context: empty strings and the number 0 are falsy. -/
def Value.truthy {A : Type} : Value A → Bool
  | .vstr s => s ≠ ""
  | .vint n => n ≠ 0
  | .vvec v => !v.isEmpty

/-- Rendering of a value inside an f-string, Python `str(value)`.
List-valued fields are never rendered by the source (the script only
reads the scalar listing fields and only ever writes the vector field),
so their rendering is an unexercised placeholder. -/
def Value.render {A : Type} : Value A → String
  | .vstr s => s
  | .vint n => toString n
  | .vvec _ => "<list>"

/-- Dictionary lookup, `property_data.get(k)`: first binding of the key. -/
def getF {A : Type} : Record A → String → Option (Value A)
  | [], _ => none
  | (k, v) :: t, q => if k = q then some v else getF t q

/-- Key membership, Python `k in property_data`. -/
def hasField {A : Type} : Record A → String → Bool
  | [], _ => false
  | (k, _) :: t, q => if k = q then true else hasField t q

/-- Dictionary assignment `property_data[k] = v`: update in place if the
key exists (keeping its position), otherwise append the new binding. -/
def setF {A : Type} : Record A → String → Value A → Record A
  | [], k, v => [(k, v)]
  | (k1, v1) :: t, k, v => if k1 = k then (k, v) :: t else (k1, v1) :: setF t k v

/-- Removal of every binding of a key (used to state frame conditions). -/
def removeF {A : Type} : Record A → String → Record A
  | [], _ => []
  | (k1, v1) :: t, q => if k1 = q then removeF t q else (k1, v1) :: removeF t q

/-- `property_data.get(k)` is truthy: the field is present and non-empty. -/
def truthyAt {A : Type} (r : Record A) (k : String) : Bool :=
  match getF r k with
  | some v => v.truthy
  | none => false

/-- The rendered value of a field, `str(property_data[k])`; only used
under a `truthyAt` guard, so the key is present there. -/
def renderAt {A : Type} (r : Record A) (k : String) : String :=
  match getF r k with
  | some v => v.render
  | none => ""

/-- Python `property_data[k] == s` against a string literal: values of a
different type never equal the string. -/
def valueIs {A : Type} (r : Record A) (k : String) (s : String) : Bool :=
  match getF r k with
  | some (.vstr t) => t = s
  | _ => false

/-- `create_property_text` (generate_embeddings.py, lines 34-86): builds
the list `text_parts` by conditionally appending one rendered segment per
listing field, in the fixed order of the source, then joins with " | ".  Each
`if cond: text_parts.append(x)` becomes appending `if cond then [x] else []`. -/
def create_property_text {A : Type} (r : Record A) : String :=
  let parts : List String :=
    (if truthyAt r "title" then ["Title: " ++ renderAt r "title"] else []) ++
    (if truthyAt r "address" then ["Address: " ++ renderAt r "address"] else []) ++
    (if truthyAt r "bhk" then ["Type: " ++ renderAt r "bhk"] else []) ++
    (if truthyAt r "propertyType" && !valueIs r "propertyType" "All" then
      ["Property Type: " ++ renderAt r "propertyType"] else []) ++
    (if truthyAt r "rent" then ["Rent: ₹" ++ renderAt r "rent"] else []) ++
    (if truthyAt r "area" then ["Area: " ++ renderAt r "area" ++ " sq ft"] else []) ++
    (if truthyAt r "furnishing" then ["Furnishing: " ++ renderAt r "furnishing"] else []) ++
    (if truthyAt r "_area" then ["Location: " ++ renderAt r "_area"] else []) ++
    (if truthyAt r "_zone" then ["Zone: " ++ renderAt r "_zone"] else []) ++
    (if truthyAt r "deposit" then ["Deposit: ₹" ++ renderAt r "deposit"] else []) ++
    (if truthyAt r "preferredTenants" && !valueIs r "preferredTenants" "All" &&
        !valueIs r "preferredTenants" "Get Owner Details" then
      ["Preferred: " ++ renderAt r "preferredTenants"] else []) ++
    (if truthyAt r "maintenance" && !valueIs r "maintenance" "No Extra Maintenance" then
      ["Maintenance: " ++ renderAt r "maintenance"] else [])
  String.intercalate " | " parts

/-- The claim-side reading of the TextComposer contract: the " | "-join,
in the fixed field order, of the "Label: value" segments of every field
that is present, non-empty and not equal to its sentinel-exclusion value,
with rent and deposit values prefixed by the currency symbol (the area
segment carries the " sq ft" unit suffix of the source in its rendered value). -/
def composeSpec {A : Type} (r : Record A) : String :=
  String.intercalate " | " (List.filterMap id
    [ if truthyAt r "title" then some ("Title: " ++ renderAt r "title") else none,
      if truthyAt r "address" then some ("Address: " ++ renderAt r "address") else none,
      if truthyAt r "bhk" then some ("Type: " ++ renderAt r "bhk") else none,
      if truthyAt r "propertyType" && !valueIs r "propertyType" "All" then
        some ("Property Type: " ++ renderAt r "propertyType") else none,
      if truthyAt r "rent" then some ("Rent: ₹" ++ renderAt r "rent") else none,
      if truthyAt r "area" then some ("Area: " ++ renderAt r "area" ++ " sq ft") else none,
      if truthyAt r "furnishing" then some ("Furnishing: " ++ renderAt r "furnishing") else none,
      if truthyAt r "_area" then some ("Location: " ++ renderAt r "_area") else none,
      if truthyAt r "_zone" then some ("Zone: " ++ renderAt r "_zone") else none,
      if truthyAt r "deposit" then some ("Deposit: ₹" ++ renderAt r "deposit") else none,
      if truthyAt r "preferredTenants" && !valueIs r "preferredTenants" "All" &&
          !valueIs r "preferredTenants" "Get Owner Details" then
        some ("Preferred: " ++ renderAt r "preferredTenants") else none,
      if truthyAt r "maintenance" && !valueIs r "maintenance" "No Extra Maintenance" then
        some ("Maintenance: " ++ renderAt r "maintenance") else none ])

/-- Outcome of one call to the remote embedding service
(`client.embeddings.create`): a returned raw vector, an
`openai.RateLimitError`, or any other exception. -/
inductive ServiceOutcome (A : Type) where
  | ok (v : List A)
  | rateLimit
  | otherError

/-- `(ServiceOutcome.isOk o)` holds when the call returned a vector. -/
def ServiceOutcome.isOk {A : Type} : ServiceOutcome A → Bool
  | .ok _ => true
  | _ => false

/-- Exception classes that `generate_embedding` can re-raise. -/
inductive EmbErr where
  | rateLimitErr
  | otherErr
deriving DecidableEq

/-- The remote service as an oracle: the outcome of the i-th call (0-based)
made for a given input text. -/
def Oracle (A : Type) : Type := String → Nat → ServiceOutcome A

/-- The body of the `for attempt in range(max_retries)` loop of
`generate_embedding` (generate_embeddings.py, lines 92-116), from a given
attempt index, with structural fuel equal to the number of remaining
iterations.  The result records the Python return value (`some` a vector
on success, `none` when the loop ends without returning), the raised
exception if any, the list of sleep durations, and the number of service
calls made.  On a rate-limit error before the final attempt the loop
sleeps 2 ^ attempt and retries; on any other error it sleeps 1 and
retries; on the final attempt both handlers re-raise. -/
def genEmbLoop {A : Type} (oracle : Oracle A) (text : String) (maxRetries : Nat) :
    Nat → Nat → Except EmbErr (Option (List A)) × List Nat × Nat
  | _, 0 => (.ok none, [], 0)
  | attempt, fuel + 1 =>
    match oracle text attempt with
    | .ok v => (.ok (some v), [], 1)
    | .rateLimit =>
      if attempt < maxRetries - 1 then
        let r := genEmbLoop oracle text maxRetries (attempt + 1) fuel
        (r.1, 2 ^ attempt :: r.2.1, r.2.2 + 1)
      else (.error .rateLimitErr, [], 1)
    | .otherError =>
      if attempt < maxRetries - 1 then
        let r := genEmbLoop oracle text maxRetries (attempt + 1) fuel
        (r.1, 1 :: r.2.1, r.2.2 + 1)
      else (.error .otherErr, [], 1)

/-- `generate_embedding(text, max_retries)` (generate_embeddings.py,
lines 88-116).  `range(max_retries)` of a non-positive count is empty, in
which case the function falls off the loop and returns Python `None`. -/
def generate_embedding {A : Type} (oracle : Oracle A) (text : String)
    (max_retries : Int) : Except EmbErr (Option (List A)) × List Nat × Nat :=
  genEmbLoop oracle text max_retries.toNat 0 max_retries.toNat

/-- Value of a hexadecimal digit character. -/
def hexDigitVal (c : Char) : Nat :=
  if c.isDigit then c.toNat - 48
  else if c.toNat ≥ 97 ∧ c.toNat ≤ 102 then c.toNat - 87
  else if c.toNat ≥ 65 ∧ c.toNat ≤ 70 then c.toNat - 55
  else 0

/-- `int(s, 16)` on a string of hexadecimal digits. -/
def hexVal (s : String) : Nat :=
  s.foldl (fun acc c => acc * 16 + hexDigitVal c) 0

/-- `int(hashlib.sha256(text.encode()).hexdigest()[:8], 16)`: the RNG seed
derived from the text (generate_embeddings.py, lines 124-127), with the
SHA-256 hex digest supplied as an external collaborator. -/
def seedOf (sha256hex : String → String) (text : String) : Nat :=
  hexVal ((sha256hex text).take 8)

/-- Sum of squares of a vector, the square of its Euclidean norm. -/
def sumSq {A : Type} [CommRing A] (v : List A) : A :=
  (v.map fun x => x * x).sum

/-- `vector / np.linalg.norm(vector)`: divide every component by the
Euclidean norm, the square root of the sum of squares, with the square
root supplied as an external collaborator. -/
def lnormalize {A : Type} [Field A] (sqrtFn : A → A) (v : List A) : List A :=
  v.map fun x => x / sqrtFn (sumSq v)

/-- The external collaborators of the script, bundled: the SHA-256 hex
digest, the global RNG of numpy (`np.random.seed` builds a state from a seed,
`np.random.randn` draws from a state, returning the sample and the next
state), the square root inside `np.linalg.norm`, and the remote embedding
service. -/
structure Ext (A : Type) (S : Type) where
  sha256hex : String → String
  npSeed : Nat → S
  npRandn : S → Nat → List A × S
  npSqrt : A → A
  oracle : Oracle A

/-- The numpy contract that `np.random.randn(n)` returns exactly n draws. -/
def RandnLen {A S : Type} (E : Ext A S) : Prop :=
  ∀ s n, ((E.npRandn s n).1).length = n

/-- The square-root contract of `np.linalg.norm`: on non-negative inputs
the result is a non-negative square root. -/
def SqrtSpec {A S : Type} [LinearOrderedField A] (E : Ext A S) : Prop :=
  ∀ x : A, 0 ≤ x → E.npSqrt x * E.npSqrt x = x ∧ 0 ≤ E.npSqrt x

/-- `generate_fallback_embedding(text, dimensions)`
(generate_embeddings.py, lines 118-133), with the ambient RNG state
threaded explicitly: seed the global RNG from the SHA-256 digest of the
text (discarding the incoming state), draw `dimensions` values, and
normalize them to unit Euclidean norm. -/
def generate_fallback_embedding {A S : Type} [Field A] (E : Ext A S)
    (text : String) (dimensions : Nat) (st : S) : List A × S :=
  let st1 := E.npSeed (seedOf E.sha256hex text)
  let draw := E.npRandn st1 dimensions
  (lnormalize E.npSqrt draw.1, draw.2)

/-- Normalisation of a remote embedding to 1036 dimensions
(generate_embeddings.py, lines 150-155): truncate if longer, zero-pad at
the end if shorter. -/
def normalizeDim {A : Type} [Field A] (v : List A) : List A :=
  if v.length > 1036 then v.take 1036
  else if v.length < 1036 then v ++ List.replicate (1036 - v.length) 0
  else v

/-- `process_property(property_data, use_openai)` (generate_embeddings.py,
lines 135-169).  A record that already has a vector is returned unchanged.
Otherwise the composed text is embedded: in remote mode (use_openai set
and the client initialised) a successful `generate_embedding` result is
normalised to 1036 dimensions, and any exception from it, or a `None`
return, lands in the `except` handler which substitutes the fallback
embedding; outside remote mode the fallback is used directly.  The
function is total: no exception escapes it. -/
def process_property {A S : Type} [Field A] (E : Ext A S) (st : S)
    (use_openai : Bool) (clientInit : Bool) (r : Record A) : Record A :=
  if hasField r "vector" then r
  else
    let text := create_property_text r
    let emb : List A :=
      if use_openai && clientInit then
        match (generate_embedding E.oracle text 3).1 with
        | .ok (some v) => normalizeDim v
        | _ => (generate_fallback_embedding E text 1036 st).1
      else (generate_fallback_embedding E text 1036 st).1
    setF r "vector" (.vvec emb)

/-- One element of the top-level JSON array: a record-shaped value
(a dict) or any other JSON value, carried abstractly. -/
inductive Elem (A : Type) where
  | edict (r : Record A)
  | eother (v : Value A)
deriving DecidableEq

/-- The parsed top-level JSON value of a file: an array or anything else. -/
inductive JTop (A : Type) where
  | jarr (l : List (Elem A))
  | jother (v : Value A)
deriving DecidableEq

/-- The state of one storage file, as seen through `json.load`: `none`
when the file is unreadable or unparsable, otherwise its parsed content.
Writing is modelled as replacing this state atomically. -/
def FileState (A : Type) : Type := Option (JTop A)

instance (A : Type) [DecidableEq A] : DecidableEq (FileState A) := by
  unfold FileState; infer_instance

/-- The body of the per-element loop of `process_json_file`
(generate_embeddings.py, lines 189-192): a dict element is augmented by
`process_property` (which mutates it in place), any other element is left
alone. -/
def stepElem {A S : Type} [Field A] (E : Ext A S) (st : S)
    (use_openai : Bool) (clientInit : Bool) : Elem A → Elem A
  | .edict r => .edict (process_property E st use_openai clientInit r)
  | .eother v => .eother v

/-- `process_json_file(file_path, use_openai)` (generate_embeddings.py,
lines 171-207): an unreadable or unparsable file, or a top-level value
that is not an array, yields `False` with the file untouched; otherwise
every element is processed and the whole array is written back, yielding
`True`.  The returned pair is (reported success, resulting file state). -/
def process_json_file {A S : Type} [Field A] (E : Ext A S) (st : S)
    (use_openai : Bool) (clientInit : Bool) : FileState A → Bool × FileState A
  | none => (false, none)
  | some (.jother v) => (false, some (.jother v))
  | some (.jarr l) =>
    (true, some (.jarr (l.map (stepElem E st use_openai clientInit))))

/-- The per-file loop of `main` (generate_embeddings.py, lines 253-259):
process every file in order, counting successes and failures; a failed
file never stops the batch.  Returns (successful, failed, file states). -/
def runBatch {A S : Type} [Field A] (E : Ext A S) (st : S)
    (use_openai : Bool) (clientInit : Bool) :
    List (FileState A) → Nat × Nat × List (FileState A)
  | [] => (0, 0, [])
  | f :: fs =>
    let p := process_json_file E st use_openai clientInit f
    let rest := runBatch E st use_openai clientInit fs
    (if p.1 then rest.1 + 1 else rest.1,
     if p.1 then rest.2.1 else rest.2.1 + 1,
     p.2 :: rest.2.2)

/-- A concrete instantiation of the external collaborators, used to
evaluate the model on closed inputs: a constant digest, a unit RNG state
whose draws are all-ones vectors of the requested length, and a square
root and service oracle supplied per check. -/
def testExt {A : Type} [One A] (sq : A → A) (orc : Oracle A) : Ext A Unit where
  sha256hex := fun _ => ""
  npSeed := fun _ => ()
  npRandn := fun _ n => (List.replicate n 1, ())
  npSqrt := sq
  oracle := orc

theorem hasField_setF {A : Type} (r : Record A) (k : String) (v : Value A) :
    hasField (setF r k v) k = true := by
  induction r with
  | nil => simp [setF, hasField]
  | cons p t ih =>
    by_cases h : p.1 = k <;> simp [setF, hasField, h, ih]

theorem getF_setF_self {A : Type} (r : Record A) (k : String) (v : Value A) :
    getF (setF r k v) k = some v := by
  induction r with
  | nil => simp [setF, getF]
  | cons p t ih =>
    by_cases h : p.1 = k <;> simp [setF, getF, h, ih]

theorem getF_setF_ne {A : Type} (r : Record A) (k q : String) (v : Value A)
    (h : q ≠ k) : getF (setF r k v) q = getF r q := by
  have hkq : ¬k = q := fun hh => h hh.symm
  induction r with
  | nil => simp [setF, getF, hkq]
  | cons p t ih =>
    obtain ⟨k1, v1⟩ := p
    by_cases h1 : k1 = k
    · subst h1
      simp [setF, getF, hkq]
    · by_cases h2 : k1 = q <;> simp [setF, getF, h1, h2, ih, h, hkq]

theorem removeF_setF {A : Type} (r : Record A) (k : String) (v : Value A) :
    removeF (setF r k v) k = removeF r k := by
  induction r with
  | nil => simp [setF, removeF]
  | cons p t ih =>
    by_cases h : p.1 = k <;> simp [setF, removeF, h, ih]

theorem removeF_of_hasField_false {A : Type} (r : Record A) (k : String)
    (h : hasField r k = false) : removeF r k = r := by
  induction r with
  | nil => rfl
  | cons p t ih =>
    by_cases h1 : p.1 = k
    · simp [hasField, h1] at h
    · simp [hasField, h1] at h
      simp [removeF, h1, ih h]

theorem length_lnormalize {A : Type} [Field A] (sqrtFn : A → A) (v : List A) :
    (lnormalize sqrtFn v).length = v.length := by
  simp [lnormalize]

theorem length_normalizeDim {A : Type} [Field A] (v : List A) :
    (normalizeDim v).length = 1036 := by
  unfold normalizeDim
  by_cases h1 : v.length > 1036
  · simp [h1]; omega
  · by_cases h2 : v.length < 1036
    · simp [h1, h2]; omega
    · simp [h1, h2]; omega

theorem filterMap_id_ite_cons {c : Prop} [Decidable c] (s : String)
    (l : List (Option String)) :
    List.filterMap id ((if c then some s else none) :: l) =
      (if c then [s] else []) ++ List.filterMap id l := by
  split <;> simp [List.filterMap_cons]

theorem create_property_text_eq_composeSpec {A : Type} (r : Record A) :
    create_property_text r = composeSpec r := by
  unfold create_property_text composeSpec
  simp only [filterMap_id_ite_cons, List.filterMap_nil, List.append_nil, List.append_assoc]

theorem process_property_of_hasField {A S : Type} [Field A] (E : Ext A S)
    (st : S) (u c : Bool) (r : Record A) (h : hasField r "vector" = true) :
    process_property E st u c r = r := by
  simp [process_property, h]

theorem hasField_process_property {A S : Type} [Field A] (E : Ext A S)
    (st : S) (u c : Bool) (r : Record A) :
    hasField (process_property E st u c r) "vector" = true := by
  by_cases h : hasField r "vector" = true
  · rw [process_property_of_hasField E st u c r h]; exact h
  · simp only [Bool.not_eq_true] at h
    simp [process_property, h, hasField_setF]

theorem sumSq_nonneg {A : Type} [LinearOrderedCommRing A] (v : List A) :
    0 ≤ sumSq v := by
  induction v with
  | nil => simp [sumSq]
  | cons x t ih =>
    have hx : 0 ≤ x * x := mul_self_nonneg x
    simp only [sumSq, List.map_cons, List.sum_cons] at ih ⊢
    exact add_nonneg hx ih

theorem sumSq_map_div {A : Type} [Field A] (v : List A) (c : A) :
    sumSq (v.map fun x => x / c) = sumSq v / (c * c) := by
  induction v with
  | nil => simp [sumSq]
  | cons x t ih =>
    simp only [sumSq, List.map_cons, List.sum_cons] at ih ⊢
    rw [ih, div_mul_div_comm, add_div]

/-- Claim C5: for every Record, create_property_text is the " | "-join,
in the fixed field order title, address, bhk, propertyType, rent, area,
furnishing, _area, _zone, deposit, preferredTenants, maintenance, of the
rendered "Label: value" segments of every field that is present and
non-empty, omitting a field exactly when it is absent, empty, or equal to
its sentinel-exclusion value (propertyType "All", preferredTenants "All"
or "Get Owner Details", maintenance "No Extra Maintenance"), with rent
and deposit values prefixed by the currency symbol; the example record
composes to "Title: 2 BHK Flat | Rent: ₹15000 | Furnishing:
Semi-Furnished", and the empty record composes to the empty string. -/
theorem C5_text_composition :
    (∀ (A : Type) (r : Record A), create_property_text r = composeSpec r) ∧
    create_property_text
      ([("title", Value.vstr "2 BHK Flat"), ("rent", Value.vint 15000),
        ("furnishing", Value.vstr "Semi-Furnished")] : Record Unit) =
      "Title: 2 BHK Flat | Rent: ₹15000 | Furnishing: Semi-Furnished" ∧
    create_property_text ([] : Record Unit) = "" :=
  ⟨fun _ r => create_property_text_eq_composeSpec r, rfl, rfl⟩

/-- Claim C2: a Record that already contains a vector field is returned
unchanged by process_property, field for field, in every mode, and
augmentation is idempotent: a second application of process_property, in
any mode and from any ambient RNG state, leaves the result of the first
application unchanged. -/
theorem C2_idempotent {A S : Type} [Field A] (E : Ext A S) (st st2 : S)
    (u c u2 c2 : Bool) (r : Record A) :
    (hasField r "vector" = true → process_property E st u c r = r) ∧
    process_property E st2 u2 c2 (process_property E st u c r) =
      process_property E st u c r :=
  ⟨process_property_of_hasField E st u c r,
   process_property_of_hasField E st2 u2 c2 _
     (hasField_process_property E st u c r)⟩

/-- Claim C2 witness: a record already carrying a vector field, processed
at concrete inputs. -/
theorem C2_witness :
    hasField ([("vector", Value.vvec ([] : List ℚ))] : Record ℚ) "vector" = true ∧
    process_property (testExt id fun _ _ => ServiceOutcome.rateLimit) () true true
        [("vector", Value.vvec ([] : List ℚ))] =
      [("vector", Value.vvec ([] : List ℚ))] :=
  ⟨rfl,
   (C2_idempotent (testExt id fun _ _ => ServiceOutcome.rateLimit) () () true true
      true true [("vector", Value.vvec ([] : List ℚ))]).1 rfl⟩

/-- Claim C6: the fallback generator is deterministic: its output vector
does not depend on the ambient RNG state (the state is overwritten by the
text-derived seed before any draw), so two calls with identical text and
dimensionality return identical vectors, in particular a repeated call on
the state left by a first call. -/
theorem C6_fallback_deterministic {A S : Type} [Field A] (E : Ext A S)
    (text : String) (dims : Nat) (s1 s2 : S) :
    (generate_fallback_embedding E text dims s1).1 =
      (generate_fallback_embedding E text dims s2).1 ∧
    (generate_fallback_embedding E text dims
        ((generate_fallback_embedding E text dims s1).2)).1 =
      (generate_fallback_embedding E text dims s1).1 :=
  ⟨rfl, rfl⟩

/-- Claim C10: with a non-positive max_retries the retry loop body never
runs, so generate_embedding makes no service call, raises nothing, sleeps
never, and returns Python None. -/
theorem C10_nonpositive_retries {A : Type} (oracle : Oracle A) (text : String)
    (m : Int) (h : m ≤ 0) :
    generate_embedding oracle text m = (.ok none, [], 0) := by
  have hm : m.toNat = 0 := Int.toNat_of_nonpos h
  simp [generate_embedding, hm, genEmbLoop]

/-- Claim C10 witness: max_retries 0 and a negative count, on a service
that would always rate-limit. -/
theorem C10_witness :
    (0 : Int) ≤ 0 ∧ (-2 : Int) ≤ 0 ∧
    generate_embedding (fun _ _ => ServiceOutcome.rateLimit (A := Unit)) "x" 0 =
      (.ok none, [], 0) ∧
    generate_embedding (fun _ _ => ServiceOutcome.rateLimit (A := Unit)) "x" (-2) =
      (.ok none, [], 0) :=
  ⟨by norm_num, by norm_num,
   C10_nonpositive_retries _ "x" 0 (by norm_num),
   C10_nonpositive_retries _ "x" (-2) (by norm_num)⟩

/-- Claim C3: with max attempt count 3, generate_embedding calls the
service at most 3 times and returns the vector of the service on the first
successful attempt (after 0, 1 or 2 failed attempts of any class); on a
rate-limit failure it sleeps 2 ^ attempt time units before retrying, so a
service rate-limiting twice then succeeding is called exactly 3 times
with sleeps 1 then 2, and a service rate-limiting on all 3 attempts makes
it re-raise the rate-limit failure after the 3rd call with no further
sleep (the sleep trace stays [1, 2]). -/
theorem C3_retry_backoff {A : Type} (oracle : Oracle A) (text : String)
    (v : List A) :
    (generate_embedding oracle text 3).2.2 ≤ 3 ∧
    (oracle text 0 = .ok v →
      generate_embedding oracle text 3 = (.ok (some v), [], 1)) ∧
    ((oracle text 0).isOk = false → oracle text 1 = .ok v →
      (generate_embedding oracle text 3).1 = .ok (some v) ∧
      (generate_embedding oracle text 3).2.2 = 2) ∧
    ((oracle text 0).isOk = false → (oracle text 1).isOk = false →
      oracle text 2 = .ok v →
      (generate_embedding oracle text 3).1 = .ok (some v) ∧
      (generate_embedding oracle text 3).2.2 = 3) ∧
    (oracle text 0 = .rateLimit → oracle text 1 = .rateLimit →
      oracle text 2 = .ok v →
      generate_embedding oracle text 3 = (.ok (some v), [1, 2], 3)) ∧
    (oracle text 0 = .rateLimit → oracle text 1 = .rateLimit →
      oracle text 2 = .rateLimit →
      generate_embedding oracle text 3 = (.error .rateLimitErr, [1, 2], 3)) := by
  cases h0 : oracle text 0 <;> cases h1 : oracle text 1 <;> cases h2 : oracle text 2 <;>
    simp [generate_embedding, genEmbLoop, h0, h1, h2, ServiceOutcome.isOk]

/-- Claim C3 witness: a service that rate-limits twice then succeeds, at
concrete inputs. -/
theorem C3_witness :
    (fun (_ : String) (n : Nat) =>
        if n < 2 then ServiceOutcome.rateLimit else ServiceOutcome.ok [()]) "t" 0 =
      ServiceOutcome.rateLimit ∧
    (fun (_ : String) (n : Nat) =>
        if n < 2 then ServiceOutcome.rateLimit else ServiceOutcome.ok [()]) "t" 1 =
      ServiceOutcome.rateLimit ∧
    (fun (_ : String) (n : Nat) =>
        if n < 2 then ServiceOutcome.rateLimit else ServiceOutcome.ok [()]) "t" 2 =
      ServiceOutcome.ok [()] ∧
    generate_embedding
        (fun (_ : String) (n : Nat) =>
          if n < 2 then ServiceOutcome.rateLimit else ServiceOutcome.ok [()]) "t" 3 =
      (.ok (some [()]), [1, 2], 3) :=
  ⟨rfl, rfl, rfl,
   (C3_retry_backoff
      (fun (_ : String) (n : Nat) =>
        if n < 2 then ServiceOutcome.rateLimit else ServiceOutcome.ok [()]) "t"
      [()]).2.2.2.2.1 rfl rfl rfl⟩

/-- Claim C1: for every Record with no vector field, process_property (in
either remote or fallback mode) returns a Record whose vector field has
exactly 1036 entries; a remote embedding longer than 1036 is truncated, a
shorter one is zero-padded at the end, and the fallback generator returns
exactly 1036 values (given the numpy contract that randn(n) draws n
values). -/
theorem C1_vector_length {A S : Type} [Field A] (E : Ext A S) (st : S)
    (u c : Bool) (r : Record A) (hlen : RandnLen E)
    (h : hasField r "vector" = false) :
    (∃ emb : List A,
      getF (process_property E st u c r) "vector" = some (.vvec emb) ∧
      emb.length = 1036) ∧
    (∀ w : List A, 1036 < w.length → normalizeDim w = w.take 1036) ∧
    (∀ w : List A, w.length < 1036 →
      normalizeDim w = w ++ List.replicate (1036 - w.length) (0 : A)) ∧
    (∀ (text : String) (st2 : S),
      ((generate_fallback_embedding E text 1036 st2).1).length = 1036) := by
  have hfb : ∀ (text : String) (st2 : S),
      ((generate_fallback_embedding E text 1036 st2).1).length = 1036 := by
    intro text st2
    simp only [generate_fallback_embedding, length_lnormalize]
    exact hlen _ _
  refine ⟨?_, ?_, ?_, hfb⟩
  · by_cases huc : (u && c) = true
    · cases hg : (generate_embedding E.oracle (create_property_text r) 3).1 with
      | ok o =>
        cases o with
        | some w =>
          refine ⟨normalizeDim w, ?_, length_normalizeDim w⟩
          simp [process_property, h, huc, hg, getF_setF_self]
        | none =>
          refine ⟨(generate_fallback_embedding E (create_property_text r) 1036 st).1,
            ?_, hfb _ _⟩
          simp [process_property, h, huc, hg, getF_setF_self]
      | error e =>
        refine ⟨(generate_fallback_embedding E (create_property_text r) 1036 st).1,
          ?_, hfb _ _⟩
        simp [process_property, h, huc, hg, getF_setF_self]
    · refine ⟨(generate_fallback_embedding E (create_property_text r) 1036 st).1,
        ?_, hfb _ _⟩
      simp [process_property, h, huc, getF_setF_self]
  · intro w hw
    unfold normalizeDim
    rw [if_pos hw]
  · intro w hw
    unfold normalizeDim
    rw [if_neg (by omega), if_pos hw]

/-- Claim C1 witness: the empty record, in remote mode with a service
that always rate-limits, under an RNG drawing vectors of the requested
length. -/
theorem C1_witness :
    RandnLen (testExt (A := ℚ) id fun _ _ => ServiceOutcome.rateLimit) ∧
    hasField ([] : Record ℚ) "vector" = false ∧
    (∃ emb : List ℚ,
      getF (process_property (testExt id fun _ _ => ServiceOutcome.rateLimit) ()
          true true ([] : Record ℚ)) "vector" = some (.vvec emb) ∧
      emb.length = 1036) := by
  have hlen : RandnLen (testExt (A := ℚ) id fun _ _ => ServiceOutcome.rateLimit) := by
    intro s n
    simp [testExt]
  exact ⟨hlen, rfl,
    (C1_vector_length (testExt id fun _ _ => ServiceOutcome.rateLimit) () true true
      ([] : Record ℚ) hlen rfl).1⟩

/-- Claim C4: process_property never raises past its own boundary — it is
a total function whose result always carries a vector field — and when
the remote call fails (any exception class, including exhausted retries)
the caught failure is replaced by the fallback vector computed from the
composed text. -/
theorem C4_never_raises {A S : Type} [Field A] (E : Ext A S) (st : S)
    (u c : Bool) (r : Record A) :
    hasField (process_property E st u c r) "vector" = true ∧
    (∀ err : EmbErr,
      hasField r "vector" = false →
      (generate_embedding E.oracle (create_property_text r) 3).1 = .error err →
      u = true → c = true →
      getF (process_property E st u c r) "vector" =
        some (.vvec ((generate_fallback_embedding E (create_property_text r)
          1036 st).1))) := by
  refine ⟨hasField_process_property E st u c r, ?_⟩
  intro err h hg hu hc
  subst hu; subst hc
  simp [process_property, h, hg, getF_setF_self]

/-- Claim C4 witness: the empty record in remote mode against a service
that always rate-limits, so that the remote call exhausts its retries. -/
theorem C4_witness :
    hasField ([] : Record ℚ) "vector" = false ∧
    (generate_embedding
        (testExt (A := ℚ) id fun _ _ => ServiceOutcome.rateLimit).oracle
        (create_property_text ([] : Record ℚ)) 3).1 =
      .error .rateLimitErr ∧
    getF (process_property (testExt id fun _ _ => ServiceOutcome.rateLimit) ()
        true true ([] : Record ℚ)) "vector" =
      some (.vvec ((generate_fallback_embedding
        (testExt (A := ℚ) id fun _ _ => ServiceOutcome.rateLimit)
        (create_property_text ([] : Record ℚ)) 1036 ()).1)) :=
  ⟨rfl, rfl,
   (C4_never_raises (testExt id fun _ _ => ServiceOutcome.rateLimit) () true true
      ([] : Record ℚ)).2 .rateLimitErr rfl rfl rfl rfl⟩

/-- Claim C7, amended: whenever the drawn sample vector has a nonzero sum
of squares, the fallback vector has Euclidean norm exactly 1 (the
floating-point tolerance of the claim is idealised away over an ordered
field with an exact square root).  As stated — for every dimensionality —
the claim fails: at dimensionality 0 the drawn vector is empty and the
returned vector has norm 0, see the counterexample. -/
theorem C7_unit_norm {A S : Type} [LinearOrderedField A] (E : Ext A S)
    (text : String) (dims : Nat) (st : S) (hs : SqrtSpec E)
    (hnz : sumSq ((E.npRandn (E.npSeed (seedOf E.sha256hex text)) dims).1) ≠ 0) :
    E.npSqrt (sumSq ((generate_fallback_embedding E text dims st).1)) = 1 := by
  have h1 : (generate_fallback_embedding E text dims st).1 =
      lnormalize E.npSqrt ((E.npRandn (E.npSeed (seedOf E.sha256hex text)) dims).1) :=
    rfl
  set v := (E.npRandn (E.npSeed (seedOf E.sha256hex text)) dims).1 with hv
  rw [h1]
  have hvnn : 0 ≤ sumSq v := sumSq_nonneg v
  obtain ⟨hsq, _⟩ := hs (sumSq v) hvnn
  have h2 : sumSq (lnormalize E.npSqrt v) = 1 := by
    rw [lnormalize, sumSq_map_div, hsq, div_self hnz]
  rw [h2]
  obtain ⟨h3, h4⟩ := hs 1 zero_le_one
  rcases mul_self_eq_one_iff.mp h3 with h5 | h5
  · exact h5
  · rw [h5] at h4; linarith

/-- Claim C7 counterexample: at target dimensionality 0 the drawn sample
is the empty vector, the returned vector is empty, and its Euclidean norm
is 0, not 1 — randn(0) of numpy returns an empty array and the norm of an
empty array is 0.0, so the claim fails as stated for this dimensionality. -/
theorem C7_counterexample :
    Real.sqrt (sumSq ((generate_fallback_embedding
        (testExt Real.sqrt fun _ _ => ServiceOutcome.rateLimit) "" 0 ()).1)) ≠ 1 := by
  have h : (generate_fallback_embedding
      (testExt Real.sqrt fun _ _ => ServiceOutcome.rateLimit) "" 0 ()).1 =
      ([] : List ℝ) := rfl
  rw [h]
  have h0 : sumSq ([] : List ℝ) = 0 := rfl
  rw [h0, Real.sqrt_zero]
  norm_num

/-- Claim C7 witness: at dimensionality 1 with an all-ones draw, the
normalized vector has Euclidean norm 1. -/
theorem C7_witness :
    SqrtSpec (testExt Real.sqrt fun _ _ => ServiceOutcome.rateLimit) ∧
    sumSq (((testExt Real.sqrt fun _ _ => ServiceOutcome.rateLimit).npRandn
        ((testExt Real.sqrt fun _ _ => ServiceOutcome.rateLimit).npSeed
          (seedOf (testExt Real.sqrt fun _ _ => ServiceOutcome.rateLimit).sha256hex
            "x")) 1).1) ≠ 0 ∧
    (testExt Real.sqrt fun _ _ => ServiceOutcome.rateLimit).npSqrt
      (sumSq ((generate_fallback_embedding
        (testExt Real.sqrt fun _ _ => ServiceOutcome.rateLimit) "x" 1 ()).1)) = 1 := by
  have hs : SqrtSpec (testExt Real.sqrt fun _ _ => ServiceOutcome.rateLimit) := by
    intro x hx
    exact ⟨Real.mul_self_sqrt hx, Real.sqrt_nonneg x⟩
  have hnz : sumSq (((testExt Real.sqrt fun _ _ => ServiceOutcome.rateLimit).npRandn
      ((testExt Real.sqrt fun _ _ => ServiceOutcome.rateLimit).npSeed
        (seedOf (testExt Real.sqrt fun _ _ => ServiceOutcome.rateLimit).sha256hex
          "x")) 1).1) ≠ 0 := by
    have hv : (((testExt Real.sqrt fun _ _ => ServiceOutcome.rateLimit).npRandn
        ((testExt Real.sqrt fun _ _ => ServiceOutcome.rateLimit).npSeed
          (seedOf (testExt Real.sqrt fun _ _ => ServiceOutcome.rateLimit).sha256hex
            "x")) 1).1) = [(1 : ℝ)] := rfl
    rw [hv]
    have h1 : sumSq [(1 : ℝ)] = 1 := by simp [sumSq]
    rw [h1]
    norm_num
  exact ⟨hs, hnz,
    C7_unit_norm (testExt Real.sqrt fun _ _ => ServiceOutcome.rateLimit) "x" 1 ()
      hs hnz⟩

/-- Claim C8: whenever process_json_file terminates in the Failed state
(it reports false) the file is left exactly in its original state; an
unreadable or unparsable file and a non-array top level both fail; and
the batch driver continues past failures: it processes every file (the
final file states are the pointwise result of processing each input
file) and every file is counted exactly once as a success or a failure.
Reporting failure by a boolean return, with storage modelled as an
atomic state, captures "without raising". -/
theorem C8_failed_file_unchanged {A S : Type} [Field A] (E : Ext A S) (st : S)
    (u c : Bool) :
    (∀ fs : FileState A, (process_json_file E st u c fs).1 = false →
      (process_json_file E st u c fs).2 = fs) ∧
    (process_json_file E st u c (none : FileState A)).1 = false ∧
    (∀ v : Value A,
      (process_json_file E st u c (some (.jother v))).1 = false) ∧
    (∀ files : List (FileState A),
      (runBatch E st u c files).2.2 =
        files.map fun f => (process_json_file E st u c f).2) ∧
    (∀ files : List (FileState A),
      (runBatch E st u c files).1 + (runBatch E st u c files).2.1 =
        files.length) := by
  refine ⟨?_, rfl, fun v => rfl, ?_, ?_⟩
  · intro fs hfs
    match fs with
    | none => rfl
    | some (.jother v) => rfl
    | some (.jarr l) => simp [process_json_file] at hfs
  · intro files
    induction files with
    | nil => rfl
    | cons f t ih => simp [runBatch, ih]
  · intro files
    induction files with
    | nil => rfl
    | cons f t ih =>
      by_cases hp : (process_json_file E st u c f).1 = true <;>
        simp [runBatch, hp, ih] <;> omega

/-- Claim C8 witness: an unreadable file and a non-array file fail and
are left unchanged, and a batch of a failing and a succeeding file
processes both. -/
theorem C8_witness :
    (process_json_file (testExt (A := ℚ) id fun _ _ => ServiceOutcome.rateLimit) ()
        true true none).1 = false ∧
    (process_json_file (testExt (A := ℚ) id fun _ _ => ServiceOutcome.rateLimit) ()
        true true none).2 = none ∧
    (process_json_file (testExt (A := ℚ) id fun _ _ => ServiceOutcome.rateLimit) ()
        true true (some (.jother (Value.vint 7)))).2 =
      some (.jother (Value.vint 7)) ∧
    (runBatch (testExt (A := ℚ) id fun _ _ => ServiceOutcome.rateLimit) () true true
        [none, some (.jarr [])]).2.2 =
      [none, some (.jarr [])] :=
  ⟨(C8_failed_file_unchanged (testExt id fun _ _ => ServiceOutcome.rateLimit) ()
      true true).2.1,
   (C8_failed_file_unchanged (testExt id fun _ _ => ServiceOutcome.rateLimit) ()
      true true).1 none rfl,
   (C8_failed_file_unchanged (testExt id fun _ _ => ServiceOutcome.rateLimit) ()
      true true).1 (some (.jother (Value.vint 7))) rfl,
   by
    rw [(C8_failed_file_unchanged (testExt id fun _ _ => ServiceOutcome.rateLimit) ()
      true true).2.2.2.1 [none, some (.jarr [])]]
    rfl⟩

/-- Claim C9: on a loaded JSON array, process_json_file succeeds and
writes back the pointwise processed array — same length, same order, no
element deleted; elements that are not record-shaped pass through
unchanged; a record is modified at most by the addition of the single
vector field (any record already carrying one is untouched by C2), with
every other field preserved exactly, both as a lookup and with its
position. -/
theorem C9_frame {A S : Type} [Field A] (E : Ext A S) (st : S) (u c : Bool) :
    (∀ l : List (Elem A),
      process_json_file E st u c (some (.jarr l)) =
        (true, some (.jarr (l.map (stepElem E st u c)))) ∧
      (l.map (stepElem E st u c)).length = l.length) ∧
    (∀ v : Value A, stepElem E st u c (.eother v) = .eother v) ∧
    (∀ r : Record A,
      stepElem E st u c (.edict r) = .edict (process_property E st u c r)) ∧
    (∀ (r : Record A) (k : String), k ≠ "vector" →
      getF (process_property E st u c r) k = getF r k) ∧
    (∀ r : Record A,
      removeF (process_property E st u c r) "vector" = removeF r "vector") := by
  refine ⟨fun l => ⟨rfl, List.length_map l _⟩, fun v => rfl, fun r => rfl, ?_, ?_⟩
  · intro r k hk
    by_cases h : hasField r "vector" = true
    · rw [process_property_of_hasField E st u c r h]
    · simp only [Bool.not_eq_true] at h
      simp only [process_property, h, Bool.false_eq_true, if_false]
      exact getF_setF_ne r "vector" k _ hk
  · intro r
    by_cases h : hasField r "vector" = true
    · rw [process_property_of_hasField E st u c r h]
    · simp only [Bool.not_eq_true] at h
      simp only [process_property, h, Bool.false_eq_true, if_false]
      exact removeF_setF r "vector" _

/-- Claim C9 witness: a two-element array of a record and a non-record
value, checking pass-through, field preservation and the frame on the
vector field at concrete inputs. -/
theorem C9_witness :
    process_json_file (testExt (A := ℚ) id fun _ _ => ServiceOutcome.rateLimit) ()
        true true
        (some (.jarr [.edict [("title", Value.vstr "x")], .eother (Value.vint 3)])) =
      (true, some (.jarr
        [.edict (process_property (testExt id fun _ _ => ServiceOutcome.rateLimit) ()
          true true [("title", Value.vstr "x")]),
         .eother (Value.vint 3)])) ∧
    ("title" : String) ≠ "vector" ∧
    getF (process_property (testExt (A := ℚ) id fun _ _ => ServiceOutcome.rateLimit)
        () true true [("title", Value.vstr "x")]) "title" =
      some (Value.vstr "x") ∧
    removeF (process_property (testExt (A := ℚ) id fun _ _ => ServiceOutcome.rateLimit)
        () true true [("title", Value.vstr "x")]) "vector" =
      [("title", Value.vstr "x")] := by
  refine ⟨((C9_frame (testExt id fun _ _ => ServiceOutcome.rateLimit) ()
      true true).1 _).1, by decide, ?_, ?_⟩
  · rw [(C9_frame (testExt id fun _ _ => ServiceOutcome.rateLimit) () true true).2.2.2.1
      [("title", Value.vstr "x")] "title" (by decide)]
    rfl
  · rw [(C9_frame (testExt id fun _ _ => ServiceOutcome.rateLimit) ()
      true true).2.2.2.2 [("title", Value.vstr "x")]]
    rfl

end Estate
